import Mathlib

/-!
Verification development for the agent-loop subsystem of a social-posting
agent (source: `src/agent.ts`).  The embedding models, faithfully to the
TypeScript source:

* the weighted random prompt selection of `generateAutonomousAction`,
* the autonomous posting loop body of `runAutonomousMode`,
* the mention poll cycle `checkMentions` and the per-mention handler
  `handleTweet`, including the dedup set `processedTweets` and the
  cursor field `lastProcessedMentionId`.

Effectful collaborator calls (LLM generation, tweet/reply publication,
mention fetch) are modelled by explicit outcome parameters of type
`Except Unit _`: an `Except.error` input stands for the call throwing,
and the embedding reproduces exactly the `try`/`catch` structure of the
source.  JS numbers are modelled by `ℚ`.
-/

namespace Agent

/-- One entry of the `weightedPrompts` table: `{ prompt, weight }`. -/
structure WOption where
  prompt : String
  weight : ℚ
deriving DecidableEq

/-- `weightedPrompts.reduce((sum, item) => sum + item.weight, 0)`. -/
def totalWeight (opts : List WOption) : ℚ :=
  opts.foldl (fun sum item => sum + item.weight) 0

/-- The subtraction walk of `generateAutonomousAction`:
`random -= weight; if (random <= 0) return prompt;`.
Returns `none` when the loop falls through the whole list. -/
def walkSelect : ℚ → List WOption → Option String
  | _, [] => none
  | r, o :: rest =>
      if r - o.weight ≤ 0 then some o.prompt else walkSelect (r - o.weight) rest

/-- The selection including the final fallback of the source:
`return weightedPrompts[0].prompt;` — the FIRST option of the list. -/
def selectPrompt (opts : List WOption) (r : ℚ) : String :=
  match walkSelect r opts with
  | some p => p
  | none => (opts.headD ⟨"", 0⟩).prompt

/-- The hard-coded weighted prompt table of `generateAutonomousAction`. -/
def weightedPrompts : List WOption :=
  [ ⟨"Share an interesting fact or insight about Base blockchain or Layer 2 solutions", 4⟩,
    ⟨"Discuss a recent development or trend in the crypto ecosystem", 4⟩,
    ⟨"Explain a basic crypto concept in a simple, engaging way", 4⟩,
    ⟨"Share tips about web3 development or using CDP tools", 4⟩,
    ⟨"Start a discussion about the future of DeFi or NFTs", 3⟩,
    ⟨"Ask the community about their favorite web3 tools or projects", 3⟩,
    ⟨"Share an interesting use case of blockchain technology", 3⟩,
    ⟨"Highlight a cool feature of Base or CDP", 3⟩,
    ⟨"Share what you can do as an AI agent on Base", 2⟩,
    ⟨"Explain one of your capabilities or tools", 2⟩,
    ⟨"Share a success story or interesting interaction", 2⟩,
    ⟨"Deploy a creative meme token with an interesting concept", 1⟩,
    ⟨"Create an NFT collection about current crypto trends", 1⟩ ]

/-- `generateAutonomousAction`, parameterised by the draw
`rand = Math.random() ∈ [0,1)`; the source sets
`random = rand * totalWeight` and runs the subtraction walk. -/
def generateAutonomousAction (rand : ℚ) : String :=
  selectPrompt weightedPrompts (rand * totalWeight weightedPrompts)

/-- Cumulative prefix sums of the weights, starting from `acc`:
`cumWeights acc [o1, o2, ...] = [acc + w1, acc + w1 + w2, ...]`. -/
def cumWeights (acc : ℚ) : List WOption → List ℚ
  | [] => []
  | o :: rest => (acc + o.weight) :: cumWeights (acc + o.weight) rest

/-- Modelled from the spec: "partitioning `[0, total)` into contiguous
buckets sized by weight, in sequence order, and locating the bucket
containing `r`".  Each option is paired with the upper end of its
bucket (its cumulative weight), and the first option whose upper end is
reached by `r` is returned; boundary points (where `r` equals a
cumulative sum exactly) belong to the earlier bucket, matching the
`<= 0` test of the source. -/
def bucketSpec (opts : List WOption) (r : ℚ) : Option String :=
  match (opts.zip (cumWeights 0 opts)).find? (fun p => decide (r ≤ p.2)) with
  | some p => some p.1.prompt
  | none => none

/-- One character of the JS whitespace class relevant to `trim`. -/
def isWsChar (c : Char) : Bool :=
  c = ' ' || c = '\t' || c = '\n' || c = '\r'

/-- Model of JS `String.prototype.trim`: drop leading and trailing
whitespace characters. -/
def trimWs (s : String) : String :=
  String.mk (((s.data.dropWhile isWsChar).reverse.dropWhile isWsChar).reverse)

/-- JS truthiness of a string: every string except `""` is truthy. -/
def jsTruthy (s : String) : Bool := !(s == "")

/-- The publish guard `if (response && response.trim())` of the source. -/
def tweetGuard (s : String) : Bool := jsTruthy s && jsTruthy (trimWs s)

/-! ## The autonomous posting loop (`runAutonomousMode`) -/

/-- The prompt built around the selected thought in `runAutonomousMode`. -/
def buildTweetPrompt (thought : String) : String :=
  "Create an engaging tweet based on this idea: " ++ thought ++ "\n\n" ++
  "Guidelines:\n" ++
  "- Focus on providing value through information and engagement\n" ++
  "- Keep tweets concise and friendly (under 280 characters)\n" ++
  "- Use emojis appropriately\n" ++
  "- Include hashtags like #Base #Web3 when relevant\n" ++
  "- Don't use markdown or HTML\n" ++
  "Just provide the tweet text directly."

/-- Observable outcome of one iteration of the `while (true)` body of
`runAutonomousMode`: which text (if any) was passed to the publish sink
`twitterClient.v2.tweet`, whether that call succeeded, and how many
milliseconds the iteration sleeps before the next one. -/
structure CycleResult where
  tweetCalled : Option String
  tweetPublished : Option String
  sleepMs : ℚ
deriving DecidableEq

/-- One iteration of the loop body of `runAutonomousMode`.  `interval` is
the parameter of the source (default 3600, seconds); `rand` is the draw
used by `generateAutonomousAction`; `llm` is the outcome of
`callLLM` on the prompt it is given; `tweetRes` is the outcome of the
publish call (its error is caught by the inner handler and only logged).
An `llm` error is caught by the outer handler, which sleeps 60 seconds
instead of `interval` seconds. -/
def runAutonomousIteration (interval : ℚ) (rand : ℚ)
    (llm : String → Except Unit String) (tweetRes : Except Unit String) :
    CycleResult :=
  let thought := generateAutonomousAction rand
  match llm (buildTweetPrompt thought) with
  | .error _ => ⟨none, none, 60 * 1000⟩
  | .ok response =>
      if tweetGuard response then
        match tweetRes with
        | .ok tid => ⟨some response, some tid, interval * 1000⟩
        | .error _ => ⟨some response, none, interval * 1000⟩
      else ⟨none, none, interval * 1000⟩

/-! ## The mention poller (`checkMentions` / `handleTweet`) -/

/-- One entry of a tweet's `referenced_tweets` field. -/
structure RefTweet where
  type : String
deriving DecidableEq

/-- A fetched mention, with the fields the source reads. -/
structure Tweet where
  id : String
  text : String
  author_id : String
  referenced_tweets : Option (List RefTweet)
deriving DecidableEq

/-- An expanded user object from `includes.users`. -/
structure TUser where
  id : String
  username : String
deriving DecidableEq

/-- The shape of the fetch result the source reads: `mentions.tweets`
and `mentions.includes?.users?`. -/
structure MentionsResponse where
  tweets : List Tweet
  includesUsers : Option (List TUser)
deriving DecidableEq

/-- The mutable fields of the agent that the poller touches:
`processedTweets : Set<string>` and
`lastProcessedMentionId : string | null`. -/
structure AgentState where
  processedTweets : List String
  lastProcessedMentionId : Option String
deriving DecidableEq

/-- The fields' initialisers: `new Set()` and `null`. -/
def initialState : AgentState := ⟨[], none⟩

/-- The dedup check of the source, `!processedTweets.has(id)`: `true`
exactly when the id has not been handled yet. -/
def shouldProcess (processed : List String) (id : String) : Bool :=
  decide (id ∉ processed)

/-- `processedTweets.add(id)`: set insertion, a no-op when the id is
already present. -/
def markProcessed (processed : List String) (id : String) : List String :=
  if id ∈ processed then processed else id :: processed

/-- The `since_id` request parameter built by
`...(this.lastProcessedMentionId && { since_id: this.lastProcessedMentionId })`:
present exactly when the stored cursor is truthy. -/
def sinceIdParam (cursor : Option String) : Option String :=
  match cursor with
  | none => none
  | some s => if s == "" then none else some s

/-- `tweet.referenced_tweets?.some(ref => ref.type === "retweet")`. -/
def isRetweet (tw : Tweet) : Bool :=
  match tw.referenced_tweets with
  | none => false
  | some refs => refs.any (fun ref => ref.type == "retweet")

/-- The reply prompt built by `handleTweet`. -/
def buildReplyPrompt (authorUsername tweetText : String) : String :=
  "User @" ++ authorUsername ++ " tweeted: \"" ++ tweetText ++ "\"\n\n" ++
  "Please provide a helpful response that could be sent as a reply. " ++
  "Keep it short, engaging, and use emojis where appropriate. " ++
  "Do not use markdown or HTML."

/-- Outcomes of the external calls made while handling one mention:
`llm` maps the prompt to the `callLLM` outcome, `replyRes` is the
outcome of `twitterClient.v2.reply`. -/
structure HandleOracle where
  llm : String → Except Unit String
  replyRes : Except Unit String

/-- Observable events of a poll cycle, in execution order. -/
inductive Event where
  | dispatched (id : String)
  | marked (id : String)
  | genInvoked (id : String)
  | replyAttempt (text : String) (id : String)
  | replySent (rid : String)
  | delayMs (n : Nat)
deriving DecidableEq

/-- `handleTweet(tweetText, authorUsername, tweetId)`: skip if already
processed; otherwise add the id to the set, call the LLM, and if the
response is truthy after trimming, attempt the reply (whose failure is
caught locally).  A generation failure is caught by the surrounding
`catch`, after the id was already added.  Returns the new processed set
and the event trace. -/
def handleTweet (processed : List String) (o : HandleOracle)
    (tweetText authorUsername tweetId : String) :
    List String × List Event :=
  if tweetId ∈ processed then (processed, [])
  else
    let processed' := markProcessed processed tweetId
    match o.llm (buildReplyPrompt authorUsername tweetText) with
    | .error _ => (processed', [.marked tweetId, .genInvoked tweetId])
    | .ok response =>
        if tweetGuard response then
          match o.replyRes with
          | .ok rid =>
              (processed',
               [.marked tweetId, .genInvoked tweetId,
                .replyAttempt response tweetId, .replySent rid])
          | .error _ =>
              (processed',
               [.marked tweetId, .genInvoked tweetId,
                .replyAttempt response tweetId])
        else (processed', [.marked tweetId, .genInvoked tweetId])

/-- The `for (const tweet of mentions.tweets)` loop of `checkMentions`:
skip retweets; look the author up in `includes.users`; if found, call
`handleTweet` and sleep 1000 ms; otherwise fall through silently. -/
def processTweets (processed : List String) (users : List TUser)
    (ho : String → HandleOracle) : List Tweet → List String × List Event
  | [] => (processed, [])
  | tw :: rest =>
      if isRetweet tw then processTweets processed users ho rest
      else
        match users.find? (fun u => u.id == tw.author_id) with
        | none => processTweets processed users ho rest
        | some author =>
            let he := handleTweet processed (ho tw.id) tw.text author.username tw.id
            let restRes := processTweets he.1 users ho rest
            (restRes.1,
             Event.dispatched tw.id :: (he.2 ++ (Event.delayMs 1000 :: restRes.2)))

/-- One poll cycle, `checkMentions`: the whole body is wrapped in
`try`/`catch`, so a fetch error leaves the state unchanged and yields no
events.  On success the tweets are iterated; note that the source never
assigns `lastProcessedMentionId`, so the cursor component is returned
unchanged. -/
def checkMentions (st : AgentState) (fetch : Except Unit MentionsResponse)
    (ho : String → HandleOracle) : AgentState × List Event :=
  match fetch with
  | .error _ => (st, [])
  | .ok resp =>
      let res := processTweets st.processedTweets (resp.includesUsers.getD []) ho resp.tweets
      (⟨res.1, st.lastProcessedMentionId⟩, res.2)

/-- The ids passed to `handleTweet`, in order. -/
def dispatchedIds (evs : List Event) : List String :=
  evs.filterMap (fun e =>
    match e with
    | .dispatched i => some i
    | _ => none)

/-- The mentions of a batch that the loop hands to `handleTweet`: the
non-retweets whose author resolves in `includes.users`, in batch
order. -/
def eligibleIds (users : List TUser) (tws : List Tweet) : List String :=
  (tws.filter (fun tw =>
    !(isRetweet tw) && (users.find? (fun u => u.id == tw.author_id)).isSome)).map Tweet.id

/-! ## Lemmas about the weighted selector -/

/-- Whatever the walk returns is the prompt of one of the options. -/
theorem walkSelect_mem :
    ∀ (opts : List WOption) (r : ℚ) (p : String),
      walkSelect r opts = some p → p ∈ opts.map WOption.prompt := by
  intro opts
  induction opts with
  | nil =>
      intro r p h
      simp [walkSelect] at h
  | cons o rest ih =>
      intro r p h
      simp only [walkSelect] at h
      split at h
      · rw [Option.some_inj] at h
        simp [h]
      · simpa using Or.inr (ih _ _ h)

/-- The subtraction walk started at `r - acc` locates the first option
whose cumulative weight (counted from `acc`) reaches `r`. -/
theorem walkSelect_eq_bucketAux :
    ∀ (opts : List WOption) (acc r : ℚ),
      walkSelect (r - acc) opts =
        (match (opts.zip (cumWeights acc opts)).find? (fun p => decide (r ≤ p.2)) with
         | some p => some p.1.prompt
         | none => none) := by
  intro opts
  induction opts with
  | nil => intro acc r; rfl
  | cons o rest ih =>
      intro acc r
      simp only [walkSelect, cumWeights, List.zip_cons_cons, List.find?]
      by_cases hc : r ≤ acc + o.weight
      · have h1 : r - acc - o.weight ≤ 0 := by linarith
        rw [if_pos h1]
        simp [hc]
      · have h1 : ¬r - acc - o.weight ≤ 0 := by
          intro hle
          exact hc (by linarith)
        rw [if_neg h1]
        have h2 : r - acc - o.weight = r - (acc + o.weight) := by ring
        rw [h2, ih (acc + o.weight) r]
        simp [hc, List.zip]

/-- C6: for every draw `r`, the subtraction walk of
`generateAutonomousAction` returns the prompt of the first option at
which the running value becomes `≤ 0`, which is the option whose
contiguous weight-sized bucket contains `r` (boundary points closing
the earlier bucket); in particular on `[{p1,4},{p2,1}]` the draw
`0.99 * total` selects `p2` and the draw `0` selects `p1`. -/
theorem walk_select_locates_bucket (opts : List WOption) (r : ℚ) :
    walkSelect r opts = bucketSpec opts r ∧
    selectPrompt [⟨"p1", 4⟩, ⟨"p2", 1⟩]
      (99/100 * totalWeight [⟨"p1", 4⟩, ⟨"p2", 1⟩]) = "p2" ∧
    selectPrompt [⟨"p1", 4⟩, ⟨"p2", 1⟩] 0 = "p1" := by
  refine ⟨?_, ?_, ?_⟩
  · have h := walkSelect_eq_bucketAux opts 0 r
    rw [sub_zero] at h
    simpa [bucketSpec] using h
  · norm_num [selectPrompt, walkSelect, totalWeight]
  · norm_num [selectPrompt, walkSelect]

/-- C2 counterexample: a drifted draw that survives the whole walk
falls back to the FIRST option's prompt, not the last one's. -/
theorem drift_falls_back_to_first_not_last :
    walkSelect 5 [⟨"p1", 1⟩, ⟨"p2", 1⟩] = none ∧
    selectPrompt [⟨"p1", 1⟩, ⟨"p2", 1⟩] 5 = "p1" ∧
    ("p1" : String) ≠ "p2" :=
  ⟨by norm_num [walkSelect], by norm_num [selectPrompt, walkSelect], by decide⟩

/-- C2 (amended): when the walk consumes the whole list without the
running value becoming `≤ 0`, the selector deterministically returns
the prompt of the first option and never fails — its result is always
the prompt of one of the options. -/
theorem drift_falls_back_to_first (opts : List WOption) (r : ℚ)
    (hne : opts ≠ []) (hdrift : walkSelect r opts = none) :
    selectPrompt opts r = (opts.headD ⟨"", 0⟩).prompt ∧
    selectPrompt opts r ∈ opts.map WOption.prompt := by
  have hsel : selectPrompt opts r = (opts.headD ⟨"", 0⟩).prompt := by
    unfold selectPrompt
    rw [hdrift]
  refine ⟨hsel, ?_⟩
  rw [hsel]
  cases opts with
  | nil => exact absurd rfl hne
  | cons o rest => simp

/-- Witness for C2 (amended): a concrete drifted draw on a one-option
list. -/
theorem drift_falls_back_to_first_witness :
    selectPrompt [⟨"a", 2⟩] 7 = (([⟨"a", 2⟩] : List WOption).headD ⟨"", 0⟩).prompt ∧
    selectPrompt [⟨"a", 2⟩] 7 ∈ ([⟨"a", 2⟩] : List WOption).map WOption.prompt :=
  drift_falls_back_to_first [⟨"a", 2⟩] 7 (by simp) (by norm_num [walkSelect])

/-! ## Lemmas about the dedup set and the poll cycle -/

/-- An id is always in the set after marking it. -/
theorem mem_markProcessed_self (p : List String) (i : String) :
    i ∈ markProcessed p i := by
  unfold markProcessed
  split
  · assumption
  · exact List.mem_cons_self i p

/-- The processed set after `handleTweet` is the input set with the
handled id inserted, whatever the LLM and reply outcomes were. -/
theorem handleTweet_fst (p : List String) (o : HandleOracle) (t a i : String) :
    (handleTweet p o t a i).1 = markProcessed p i := by
  unfold handleTweet
  split
  · next h =>
      unfold markProcessed
      rw [if_pos h]
  · dsimp only
    split
    · rfl
    · split
      · split <;> rfl
      · rfl

/-- `handleTweet` emits no dispatch events of its own. -/
theorem handleTweet_no_dispatch (p : List String) (o : HandleOracle) (t a i : String) :
    dispatchedIds (handleTweet p o t a i).2 = [] := by
  unfold handleTweet
  split
  · rfl
  · dsimp only
    split
    · rfl
    · split
      · split <;> rfl
      · rfl

theorem dispatchedIds_append (l1 l2 : List Event) :
    dispatchedIds (l1 ++ l2) = dispatchedIds l1 ++ dispatchedIds l2 := by
  simp [dispatchedIds]

theorem dispatchedIds_cons_dispatched (i : String) (l : List Event) :
    dispatchedIds (Event.dispatched i :: l) = i :: dispatchedIds l := rfl

theorem dispatchedIds_cons_delay (n : Nat) (l : List Event) :
    dispatchedIds (Event.delayMs n :: l) = dispatchedIds l := rfl

/-- The ids handed to `handleTweet` by a batch iteration are exactly
the eligible ids, in batch order — independent of the per-item call
outcomes `ho`. -/
theorem processTweets_dispatched (users : List TUser) (ho : String → HandleOracle) :
    ∀ (tws : List Tweet) (p : List String),
      dispatchedIds (processTweets p users ho tws).2 = eligibleIds users tws := by
  intro tws
  induction tws with
  | nil => intro p; rfl
  | cons tw rest ih =>
      intro p
      simp only [processTweets]
      by_cases hr : isRetweet tw
      · rw [if_pos hr, ih p]
        simp [eligibleIds, List.filter_cons, hr]
      · rw [if_neg hr]
        cases hf : users.find? (fun u => u.id == tw.author_id) with
        | none =>
            rw [ih p]
            simp [eligibleIds, List.filter_cons, hr, hf]
        | some author =>
            dsimp only
            rw [dispatchedIds_cons_dispatched, dispatchedIds_append,
                handleTweet_no_dispatch, dispatchedIds_cons_delay, ih]
            simp [eligibleIds, List.filter_cons, hr, hf]

/-- The cursor field is returned unchanged by every poll cycle: no
assignment to `lastProcessedMentionId` exists in the source. -/
theorem checkMentions_preserves_cursor (st : AgentState)
    (fetch : Except Unit MentionsResponse) (ho : String → HandleOracle) :
    (checkMentions st fetch ho).1.lastProcessedMentionId = st.lastProcessedMentionId := by
  cases fetch <;> rfl

theorem trimWs_empty : trimWs "" = "" := rfl

/-- The publish guard `response && response.trim()` passes exactly when
the trimmed text is non-empty. -/
theorem tweetGuard_iff (s : String) : tweetGuard s = true ↔ trimWs s ≠ "" := by
  constructor
  · intro hg hempty
    unfold tweetGuard jsTruthy at hg
    rw [hempty] at hg
    simp at hg
  · intro hne
    have hs : s ≠ "" := by
      intro h
      rw [h] at hne
      exact hne trimWs_empty
    unfold tweetGuard jsTruthy
    simp [hs, hne]

/-! ## Claim theorems -/

/-- C1: the cursor is NOT advanced to the maximum item id observed in a
cycle — starting from the initial state, a cycle that fetches and
dispatches the mention `"100"` still ends with
`lastProcessedMentionId = none`, and in fact every cycle returns the
cursor unchanged, because the source never assigns the field. -/
theorem cursor_never_advances :
    (checkMentions initialState
        (Except.ok ⟨[⟨"100", "gm agent", "u1", none⟩], some [⟨"u1", "alice"⟩]⟩)
        (fun _ => ⟨fun _ => Except.ok "hello there", Except.ok "rid1"⟩)).1.lastProcessedMentionId
      = none ∧
    dispatchedIds (checkMentions initialState
        (Except.ok ⟨[⟨"100", "gm agent", "u1", none⟩], some [⟨"u1", "alice"⟩]⟩)
        (fun _ => ⟨fun _ => Except.ok "hello there", Except.ok "rid1"⟩)).2
      = ["100"] ∧
    ∀ (st : AgentState) (fetch : Except Unit MentionsResponse) (ho : String → HandleOracle),
      (checkMentions st fetch ho).1.lastProcessedMentionId = st.lastProcessedMentionId :=
  ⟨by decide, by decide, checkMentions_preserves_cursor⟩

/-- C3 counterexample: in an iteration whose publish call throws (and is
caught by the inner handler), the loop still sleeps the normal
`interval` — here 3600 s — and not the 60 s recovery interval. -/
theorem publish_error_sleeps_normal_interval :
    (runAutonomousIteration 3600 0 (fun _ => Except.ok "gm") (Except.error ())).tweetCalled
      = some "gm" ∧
    (runAutonomousIteration 3600 0 (fun _ => Except.ok "gm") (Except.error ())).tweetPublished
      = none ∧
    (runAutonomousIteration 3600 0 (fun _ => Except.ok "gm") (Except.error ())).sleepMs
      = 3600 * 1000 ∧
    (3600 * 1000 : ℚ) ≠ 60 * 1000 := by
  have hg : tweetGuard "gm" = true := by decide
  refine ⟨?_, ?_, ?_, by norm_num⟩ <;> simp [runAutonomousIteration, hg]

/-- C3 (amended): an error thrown during topic selection or generation
is caught by the outer handler and the loop sleeps the fixed 60 s
recovery interval; when generation returns (even if the publish call
then throws and is caught by the inner handler) the loop sleeps the
normal interval. -/
theorem recovery_interval_on_generation_error (interval rand : ℚ)
    (tweetRes : Except Unit String) :
    (runAutonomousIteration interval rand (fun _ => Except.error ()) tweetRes).sleepMs
      = 60 * 1000 ∧
    ∀ s : String,
      (runAutonomousIteration interval rand (fun _ => Except.ok s) tweetRes).sleepMs
        = interval * 1000 := by
  constructor
  · simp [runAutonomousIteration]
  · intro s
    cases tweetRes <;> by_cases hg : tweetGuard s <;>
      simp [runAutonomousIteration, hg]

/-- C4: for a not-yet-processed id the dedup check approves processing;
after marking it the check rejects it; and marking twice leaves the set
exactly as marking once. -/
theorem dedup_check_and_mark (s : List String) (i : String) (h : i ∉ s) :
    shouldProcess s i = true ∧
    shouldProcess (markProcessed s i) i = false ∧
    markProcessed (markProcessed s i) i = markProcessed s i := by
  refine ⟨?_, ?_, ?_⟩
  · simp [shouldProcess, h]
  · simp [shouldProcess, mem_markProcessed_self]
  · show (if i ∈ markProcessed s i then markProcessed s i else i :: markProcessed s i)
      = markProcessed s i
    rw [if_pos (mem_markProcessed_self s i)]

/-- Witness for C4 at a concrete set and id. -/
theorem dedup_check_and_mark_witness :
    shouldProcess ["a"] "b" = true ∧
    shouldProcess (markProcessed ["a"] "b") "b" = false ∧
    markProcessed (markProcessed ["a"] "b") "b" = markProcessed ["a"] "b" :=
  dedup_check_and_mark ["a"] "b" (by decide)

/-- C5: a poll cycle whose fetch throws returns the state (processed set
and cursor) unchanged, raises nothing and dispatches nothing; and on a
successful fetch the dispatched ids are exactly the eligible batch items
in order, for EVERY per-item outcome oracle — one item's failure cannot
drop the remaining items. -/
theorem poll_cycle_error_isolation (st : AgentState) (resp : MentionsResponse)
    (ho : String → HandleOracle) :
    checkMentions st (Except.error ()) ho = (st, []) ∧
    dispatchedIds (checkMentions st (Except.ok resp) ho).2
      = eligibleIds (resp.includesUsers.getD []) resp.tweets := by
  refine ⟨rfl, ?_⟩
  simp only [checkMentions]
  exact processTweets_dispatched _ ho resp.tweets st.processedTweets

/-- C7: a cycle receiving three items of which exactly the middle one is
a retweet, the outer two having resolvable authors, dispatches exactly
items 1 and 3, in order. -/
theorem three_items_middle_retweet (st : AgentState) (ho : String → HandleOracle)
    (t1 t2 t3 : Tweet) (users : List TUser)
    (h1 : isRetweet t1 = false) (h2 : isRetweet t2 = true) (h3 : isRetweet t3 = false)
    (a1 : (users.find? (fun u => u.id == t1.author_id)).isSome = true)
    (a3 : (users.find? (fun u => u.id == t3.author_id)).isSome = true) :
    dispatchedIds (checkMentions st (Except.ok ⟨[t1, t2, t3], some users⟩) ho).2
      = [t1.id, t3.id] := by
  simp only [checkMentions]
  rw [processTweets_dispatched]
  simp [eligibleIds, List.filter_cons, h1, h2, h3, a1, a3]

/-- Witness for C7: a concrete three-item batch whose middle item is a
retweet, handled by an oracle that fails every call. -/
theorem three_items_middle_retweet_witness :
    dispatchedIds (checkMentions initialState
      (Except.ok ⟨[⟨"1", "a", "u1", none⟩,
                   ⟨"2", "b", "u2", some [⟨"retweet"⟩]⟩,
                   ⟨"3", "c", "u1", none⟩],
        some [⟨"u1", "alice"⟩, ⟨"u2", "bob"⟩]⟩)
      (fun _ => ⟨fun _ => Except.error (), Except.error ()⟩)).2
      = ["1", "3"] :=
  three_items_middle_retweet initialState
    (fun _ => ⟨fun _ => Except.error (), Except.error ()⟩)
    ⟨"1", "a", "u1", none⟩ ⟨"2", "b", "u2", some [⟨"retweet"⟩]⟩ ⟨"3", "c", "u1", none⟩
    [⟨"u1", "alice"⟩, ⟨"u2", "bob"⟩]
    (by decide) (by decide) (by decide) (by decide) (by decide)

/-- C8: in an iteration whose generation returns `s`, the publish sink
is called exactly when `s` is non-empty after trimming whitespace. -/
theorem tweet_called_iff_trim_nonempty (interval rand : ℚ)
    (tweetRes : Except Unit String) (s : String) :
    (runAutonomousIteration interval rand (fun _ => Except.ok s) tweetRes).tweetCalled.isSome
        = true
      ↔ trimWs s ≠ "" := by
  rw [← tweetGuard_iff]
  cases tweetRes <;> by_cases hg : tweetGuard s <;>
    simp [runAutonomousIteration, hg]

/-- Witness for C8: a blank-padded but non-empty generation is
published. -/
theorem tweet_called_iff_trim_nonempty_witness :
    (runAutonomousIteration 3600 (1/2) (fun _ => Except.ok " hi ")
        (Except.ok "tid")).tweetCalled.isSome = true :=
  (tweet_called_iff_trim_nonempty 3600 (1/2) (Except.ok "tid") " hi ").mpr (by decide)

/-- C9: handling a fresh id inserts it into the processed set BEFORE the
generator is invoked, so the id is in the set after the call whatever
the generation and reply outcomes were. -/
theorem marked_before_generation (p : List String) (o : HandleOracle)
    (t a i : String) (h : i ∉ p) :
    i ∈ (handleTweet p o t a i).1 ∧
    ∃ rest, (handleTweet p o t a i).2
      = Event.marked i :: Event.genInvoked i :: rest := by
  constructor
  · rw [handleTweet_fst]
    exact mem_markProcessed_self p i
  · unfold handleTweet
    rw [if_neg h]
    dsimp only
    cases hllm : o.llm (buildReplyPrompt a t) with
    | error e => exact ⟨[], rfl⟩
    | ok response =>
        dsimp only
        by_cases hg : tweetGuard response
        · rw [if_pos hg]
          cases hrep : o.replyRes with
          | ok rid => exact ⟨[.replyAttempt response i, .replySent rid], rfl⟩
          | error e => exact ⟨[.replyAttempt response i], rfl⟩
        · rw [if_neg hg]
          exact ⟨[], rfl⟩

/-- Witness for C9: a fresh id whose generation AND reply both throw is
still marked, with the mark event preceding the generator call. -/
theorem marked_before_generation_witness :
    "7" ∈ (handleTweet [] ⟨fun _ => Except.error (), Except.error ()⟩ "hey" "alice" "7").1 ∧
    ∃ rest, (handleTweet [] ⟨fun _ => Except.error (), Except.error ()⟩ "hey" "alice" "7").2
      = Event.marked "7" :: Event.genInvoked "7" :: rest :=
  marked_before_generation [] ⟨fun _ => Except.error (), Except.error ()⟩ "hey" "alice" "7"
    (by decide)

/-- C10: a non-retweet mention whose author id resolves to no user in
`includes.users` is skipped silently — the batch iteration proceeds
exactly as if the item were absent: no dispatch, no marking, no per-item
delay. -/
theorem missing_author_skipped (p : List String) (users : List TUser)
    (ho : String → HandleOracle) (tw : Tweet) (rest : List Tweet)
    (hr : isRetweet tw = false)
    (ha : users.find? (fun u => u.id == tw.author_id) = none) :
    processTweets p users ho (tw :: rest) = processTweets p users ho rest := by
  have hr' : ¬(isRetweet tw = true) := by simp [hr]
  simp only [processTweets]
  rw [if_neg hr', ha]

/-- Witness for C10: a concrete mention by an unexpanded author. -/
theorem missing_author_skipped_witness :
    processTweets [] [⟨"u2", "bob"⟩]
        (fun _ => ⟨fun _ => Except.ok "r", Except.ok "x"⟩)
        [⟨"9", "hey", "u1", none⟩]
      = processTweets [] [⟨"u2", "bob"⟩]
          (fun _ => ⟨fun _ => Except.ok "r", Except.ok "x"⟩) [] :=
  missing_author_skipped [] [⟨"u2", "bob"⟩]
    (fun _ => ⟨fun _ => Except.ok "r", Except.ok "x"⟩)
    ⟨"9", "hey", "u1", none⟩ [] (by decide) (by decide)

end Agent
